import Mathlib

/-!
Shallow embedding of the validator RPC handlers of the `ream` repository
(`crates/rpc/src/handlers/validator.rs`, `crates/rpc/src/types/query.rs`),
together with theorems settling the specification claims about them.

Machine integers (`u64`, `usize`) are modelled as `Nat`: on the 64-bit
platforms the code targets, `i as usize` on a `u64` is lossless and no
arithmetic in the handlers can overflow.  Fallible Rust code returning
`Result<_, ApiError>` is modelled as `Except ApiError _`.  The `warp`
HTTP plumbing (status codes, JSON serialisation) is out of scope; the
observable value of a handler is the `Result` payload.
-/

namespace Ream

/-- Modelled from the spec: a BLS public key is a fixed-size byte identity
(`ream_consensus::validator::Validator::pubkey`, outside `src/`); modelled
as an opaque `Nat` identity. -/
abbrev Pubkey := Nat

/-- Modelled from the spec: the string form of a pubkey, as produced by the
Rust `Debug` formatting of the pubkey used both in the
`ValidatorNotFound` message and in the balance-filter matching. -/
def pubkeyRepr (p : Pubkey) : String := "0x" ++ toString p

/-- Modelled from the spec: the `Validator` record (from `ream_consensus`,
outside `src/`) is an identity-bearing record with at least `pubkey` and
`exit_epoch`; only those two fields are consumed by the handlers. -/
structure Validator where
  pubkey : Pubkey
  exit_epoch : Nat
deriving DecidableEq, Repr

/-- Modelled from the spec: a fixed number of slots per epoch used by the
current-epoch computation of a snapshot. -/
def SLOTS_PER_EPOCH : Nat := 32

/-- Modelled from the spec: a `BeaconState` snapshot (from `ream_consensus`,
outside `src/`): an ordered validator sequence, a co-indexed balance
sequence, and a slot from which the current epoch is computed. -/
structure BeaconState where
  slot : Nat
  validators : List Validator
  balances : List Nat
deriving DecidableEq, Repr

/-- Modelled from the spec: the snapshot method computing the current
epoch from its slot. -/
def BeaconState.get_current_epoch (s : BeaconState) : Nat :=
  s.slot / SLOTS_PER_EPOCH

/-- Modelled from the spec: the state identifier grammar — integer slot,
state/block root, or a symbolic tag (`crate::types::id::ID`, outside
`src/`). -/
inductive ID where
  | Slot : Nat → ID
  | StateRoot : Nat → ID
  | BlockRoot : Nat → ID
  | Head : ID
  | Genesis : ID
  | Justified : ID
  | Finalized : ID
deriving DecidableEq, Repr

/-- Modelled from the spec: the validator identifier union
(`crate::types::id::ValidatorID`, outside `src/`): numeric index or
public key. -/
inductive ValidatorID where
  | Index : Nat → ValidatorID
  | Address : Pubkey → ValidatorID
deriving DecidableEq, Repr

/-- Modelled from the spec: the error taxonomy
(`crate::types::errors::ApiError`, outside `src/`): the four kinds the
handlers construct or propagate. -/
inductive ApiError where
  | ValidatorNotFound : String → ApiError
  | NotFound : String → ApiError
  | TooManyValidatorIds : String → ApiError
  | InternalError : ApiError
deriving DecidableEq, Repr

/-- Modelled from the spec: the read-only database collaborator.
`resolve` is `get_state_from_id` (in `handlers/state.rs`, outside `src/`):
it turns a state identifier into a snapshot or fails.  `get_highest_slot`
is `db.slot_index_provider().get_highest_slot()`: a fallible read
(`Except.error` = store read failure) returning the highest stored slot,
or `none` on an empty chain. -/
structure ReamDB where
  resolve : ID → Except ApiError BeaconState
  get_highest_slot : Except Unit (Option Nat)

/-- Structure `ValidatorData` (validator.rs lines 18-37): the single-validator
response payload. -/
structure ValidatorData where
  index : Nat
  balance : Nat
  status : String
  validator : Validator
deriving DecidableEq, Repr

/-- Structure `ValidatorBalance` (validator.rs lines 39-43): one `(index, balance)`
pair of the batch response, string-encoded. -/
structure ValidatorBalance where
  index : String
  balance : String
deriving DecidableEq, Repr

/-- Structure `ValidatorBalanceQuery` (query.rs lines 8-11): the optional `id`
query parameter. -/
structure ValidatorBalanceQuery where
  id : Option (List String)
deriving DecidableEq, Repr

/-- Modelled from the spec: the response envelope
(`crate::types::response::BeaconResponse`, outside `src/`) carrying the
`execution_optimistic` and `finalized` flags around the data. -/
structure BeaconResponse (α : Type) where
  execution_optimistic : Bool
  finalized : Bool
  data : α
deriving DecidableEq, Repr

/-- Function `validator_status` (validator.rs lines 97-112): find the highest known
slot, resolve it to the head snapshot, and classify the validator as
`"offline"` iff its exit epoch is strictly below the current epoch of
the head, else `"active_ongoing"`. -/
def validator_status (validator : Validator) (db : ReamDB) :
    Except ApiError String := do
  let slotOpt ← match db.get_highest_slot with
    | Except.error _ => Except.error ApiError.InternalError
    | Except.ok o => Except.ok o
  let highest_slot ← match slotOpt with
    | none => Except.error (ApiError.NotFound "Failed to find highest slot")
    | some s => Except.ok s
  let state ← db.resolve (ID.Slot highest_slot)
  if validator.exit_epoch < state.get_current_epoch then
    Except.ok "offline"
  else
    Except.ok "active_ongoing"

/-- Function `get_validator_from_state` (validator.rs lines 45-95): resolve the
state, disambiguate the validator by index or by first-matching pubkey,
fetch its balance (an absent balance entry is a `NotFound`), derive its
status against the head, and return the assembled `ValidatorData`. -/
def get_validator_from_state (state_id : ID) (validator_id : ValidatorID)
    (db : ReamDB) : Except ApiError ValidatorData := do
  let state ← db.resolve state_id
  let iv ← match validator_id with
    | ValidatorID.Index i =>
      match state.validators.get? i with
      | some validator => Except.ok (i, validator)
      | none => Except.error (ApiError.ValidatorNotFound
          ("Validator not found for index: " ++ toString i))
    | ValidatorID.Address pubkey =>
      match state.validators.enum.find? (fun p => p.2.pubkey == pubkey) with
      | some p => Except.ok p
      | none => Except.error (ApiError.ValidatorNotFound
          ("Validator not found for pubkey: " ++ pubkeyRepr pubkey))
  let balance ← match state.balances.get? iv.1 with
    | some b => Except.ok b
    | none => Except.error (ApiError.NotFound
        ("Validator not found for index: " ++ toString iv.1))
  let status ← validator_status iv.2 db
  Except.ok ⟨iv.1, balance, status, iv.2⟩

/-- Function `get_validator_balances_from_state` (validator.rs lines 114-163):
resolve the state, normalise the `id` filter into an optional set of
strings (empty list and absent both mean no filter), reject a filter of
more than 1000 distinct ids, then scan the validators in index order,
keeping index `i` iff no filter is active or the set contains the decimal
form of `i` or the string form of the pubkey; each kept index reports its
balance, defaulting to 0 when the balance sequence has no entry. -/
def get_validator_balances_from_state (state_id : ID)
    (query : ValidatorBalanceQuery) (db : ReamDB) :
    Except ApiError (BeaconResponse (List ValidatorBalance)) := do
  let state ← db.resolve state_id
  let filter : Option (Finset String) :=
    match query.id with
    | some ids => if ids.isEmpty then none else some ids.toFinset
    | none => none
  match filter with
  | some ids =>
    if ids.card > 1000 then
      Except.error (ApiError.TooManyValidatorIds
        "Too many validator IDs in request")
    else Except.ok ()
  | none => Except.ok ()
  let validator_balances : List ValidatorBalance :=
    state.validators.enum.filterMap (fun p =>
      match filter with
      | some ids =>
        if toString p.1 ∉ ids ∧ pubkeyRepr p.2.pubkey ∉ ids then
          none
        else
          some ⟨toString p.1, toString ((state.balances.get? p.1).getD 0)⟩
      | none =>
          some ⟨toString p.1, toString ((state.balances.get? p.1).getD 0)⟩)
  Except.ok ⟨false, false, validator_balances⟩

/-! ### Concrete fixtures

A small snapshot (the example of the spec itself: three validators with balances
`[32000000000, 31500000000, 0]`) and a database resolving every identifier
to it, used to instantiate the theorems below on concrete inputs. -/

/-- Fixture validator 0: pubkey 100, exits at epoch 5. -/
def v0 : Validator := ⟨100, 5⟩

/-- Fixture validator 1: pubkey 101, exited at epoch 1. -/
def v1 : Validator := ⟨101, 1⟩

/-- Fixture validator 2: same pubkey as `v0`, exits at epoch 7. -/
def v2 : Validator := ⟨100, 7⟩

/-- Fixture snapshot at slot 64 (current epoch 2). -/
def S0 : BeaconState := ⟨64, [v0, v1, v2], [32000000000, 31500000000, 0]⟩

/-- Fixture database: every identifier resolves to `S0`; the highest
stored slot is 64. -/
def db0 : ReamDB := ⟨fun _ => Except.ok S0, Except.ok (some 64)⟩

/-- Fixture snapshot whose balance sequence is shorter than its validator
sequence (an integrity violation). -/
def Sshort : BeaconState := ⟨64, [v0], []⟩

/-- Fixture database resolving everything to `Sshort`. -/
def dbShort : ReamDB := ⟨fun _ => Except.ok Sshort, Except.ok (some 64)⟩

/-- Fixture snapshot with no validators at all. -/
def Sempty : BeaconState := ⟨64, [], []⟩

/-- Fixture database resolving everything to `Sempty`. -/
def dbEmpty : ReamDB := ⟨fun _ => Except.ok Sempty, Except.ok (some 64)⟩

/-- A list of `n` pairwise-distinct id strings (the string of `k` repetitions of
`a` for `k < n`), used to exercise the 1000-id cardinality cap. -/
def bigIds (n : Nat) : List String :=
  (List.range n).map (fun k => String.mk (List.replicate k 'a'))

/-! ### Helper lemmas -/

theorem ok_bind {ε α β : Type} (a : α) (f : α → Except ε β) :
    (Except.ok a >>= f : Except ε β) = f a := rfl

theorem error_bind {ε α β : Type} (e : ε) (f : α → Except ε β) :
    (Except.error e >>= f : Except ε β) = Except.error e := rfl

/-- Running `find?` over an enumeration returns the first index satisfying the
predicate on the element, offset by the start of the enumeration. -/
theorem enumFrom_find?_of_first {α : Type} (p : α → Bool) (l : List α) :
    ∀ (n j : Nat) (hj : j < l.length),
      p (l.get ⟨j, hj⟩) = true →
      (∀ j' (hj' : j' < l.length), j' < j → p (l.get ⟨j', hj'⟩) = false) →
      (l.enumFrom n).find? (fun q => p q.2) = some (n + j, l.get ⟨j, hj⟩) := by
  induction l with
  | nil => intro n j hj; simp at hj
  | cons a l ih =>
    intro n j hj hp hfirst
    cases j with
    | zero =>
      rw [List.enumFrom_cons, List.find?_cons_of_pos]
      · simp
      · simpa using hp
    | succ j =>
      rw [List.enumFrom_cons, List.find?_cons_of_neg]
      · have harg : ∀ j' (hj' : j' < l.length), j' < j →
            p (l.get ⟨j', hj'⟩) = false := by
          intro j' hj' hlt
          have := hfirst (j' + 1) (by simpa using Nat.succ_lt_succ hj')
            (Nat.succ_lt_succ hlt)
          simpa using this
        have h := ih (n + 1) j (by simpa using hj) (by simpa using hp) harg
        rw [h]
        have : n + 1 + j = n + (j + 1) := by omega
        simp [this]
      · have h0 := hfirst 0 (by omega) (by omega)
        simpa using h0

/-- Rewriting `filterMap` over an enumeration positionally over the index
range of the underlying list. -/
theorem enumFrom_filterMap_eq {α β : Type} (g : Nat × α → Option β)
    (l : List α) :
    ∀ n, (l.enumFrom n).filterMap g =
      (List.range l.length).filterMap
        (fun i => (l.get? i).bind (fun a => g (n + i, a))) := by
  induction l with
  | nil => intro n; simp
  | cons a l ih =>
    intro n
    rw [List.enumFrom_cons, List.filterMap_cons, List.length_cons,
      List.range_succ_eq_map, List.filterMap_cons, List.filterMap_map]
    have htail :
        ((fun i => ((a :: l).get? i).bind (fun x => g (n + i, x))) ∘ Nat.succ)
          = fun i => (l.get? i).bind (fun x => g ((n + 1) + i, x)) := by
      funext i
      have hni : n + (i + 1) = (n + 1) + i := by omega
      simp only [Function.comp, Nat.succ_eq_add_one, List.get?_cons_succ, hni]
    rw [htail, ← ih (n + 1)]
    cases hg : g (n, a) <;> simp [hg]

/-- A `filterMap` by a function that is everywhere `none` or `some (e i)`
is the `map` of `e` over the `filter` keeping the `isSome` positions. -/
theorem filterMap_eq_map_filter_isSome {α γ : Type} (f : α → Option γ)
    (e : α → γ) (hf : ∀ i, f i = none ∨ f i = some (e i)) :
    ∀ l : List α,
      l.filterMap f = (l.filter (fun i => (f i).isSome)).map e := by
  intro l
  induction l with
  | nil => simp
  | cons a l ih =>
    rw [List.filterMap_cons, List.filter_cons]
    rcases hf a with h | h <;> simp [h, ih]

/-- A `filterMap` by a total `some` is a `map`. -/
theorem filterMap_some_eq_map {α β : Type} (f : α → β) (l : List α) :
    l.filterMap (fun a => some (f a)) = l.map f := by
  induction l with
  | nil => simp
  | cons a l ih => rw [List.filterMap_cons]; simp [ih]

/-- The list `bigIds n` has no duplicates. -/
theorem bigIds_nodup (n : Nat) : (bigIds n).Nodup := by
  refine List.Nodup.map ?_ (List.nodup_range n)
  intro x y hxy
  have : (List.replicate x 'a').length = (List.replicate y 'a').length := by
    rw [show List.replicate x 'a' = List.replicate y 'a' from
      congrArg String.data hxy]
  simpa using this

/-- The list `bigIds n` has exactly `n` distinct elements. -/
theorem bigIds_toFinset_card (n : Nat) : (bigIds n).toFinset.card = n := by
  rw [List.toFinset_card_of_nodup (bigIds_nodup n)]
  simp [bigIds]

/-- The list `bigIds n` is non-empty for positive `n`. -/
theorem bigIds_ne_nil (n : Nat) (hn : 0 < n) : bigIds n ≠ [] := by
  intro h
  have := congrArg List.length h
  simp [bigIds] at this
  omega

/-- The balance scan of `get_validator_balances_from_state`, for any
filter value, is the image of a strictly increasing list of indices
under the entry constructor. -/
theorem scan_sorted (S : BeaconState) (filter : Option (Finset String)) :
    ∃ incl : List Nat, incl.Pairwise (· < ·) ∧
      S.validators.enum.filterMap (fun p =>
        match filter with
        | some ids =>
          if toString p.1 ∉ ids ∧ pubkeyRepr p.2.pubkey ∉ ids then
            (none : Option ValidatorBalance)
          else
            some ⟨toString p.1, toString ((S.balances.get? p.1).getD 0)⟩
        | none =>
            some ⟨toString p.1, toString ((S.balances.get? p.1).getD 0)⟩) =
      incl.map (fun i =>
        (⟨toString i, toString ((S.balances.get? i).getD 0)⟩ :
          ValidatorBalance)) := by
  rw [show S.validators.enum = S.validators.enumFrom 0 from rfl,
    enumFrom_filterMap_eq]
  simp only [Nat.zero_add]
  refine ⟨(List.range S.validators.length).filter (fun i =>
    ((S.validators.get? i).bind (fun a =>
      match filter with
      | some ids =>
        if toString i ∉ ids ∧ pubkeyRepr a.pubkey ∉ ids then
          (none : Option ValidatorBalance)
        else
          some ⟨toString i, toString ((S.balances.get? i).getD 0)⟩
      | none =>
        some ⟨toString i, toString ((S.balances.get? i).getD 0)⟩)).isSome),
    (List.pairwise_lt_range _).filter _, ?_⟩
  apply filterMap_eq_map_filter_isSome
  intro i
  cases hg : S.validators.get? i with
  | none => left; simp [hg]
  | some v =>
    cases filter with
    | none => right; simp [hg]
    | some ids =>
      by_cases hc : toString i ∉ ids ∧ pubkeyRepr v.pubkey ∉ ids
      · left; simp [hg, hc]
      · right; simp [hg, hc]

/-! ### Claims -/

/-- C1: for every snapshot `S` resolved from the state identifier and
every in-range index `i`, `getValidator(stateId, ByIndex(i))` succeeds
and returns a view whose index is `i`, whose validator is exactly
`S.validators[i]`, and whose balance is `S.balances[i]` (under the
snapshot invariant that the balance entry exists, and with the head
lookup of the status derivation succeeding). -/
theorem getValidator_byIndex_ok (db : ReamDB) (sid : ID) (S : BeaconState)
    (i : Nat) (status : String)
    (hres : db.resolve sid = Except.ok S)
    (hi : i < S.validators.length)
    (hib : i < S.balances.length)
    (hstat : validator_status (S.validators.get ⟨i, hi⟩) db =
      Except.ok status) :
    get_validator_from_state sid (ValidatorID.Index i) db =
      Except.ok ⟨i, S.balances.get ⟨i, hib⟩, status,
        S.validators.get ⟨i, hi⟩⟩ := by
  unfold get_validator_from_state
  rw [hres]
  simp only [ok_bind, List.get?_eq_get hi, List.get?_eq_get hib, hstat]

/-- C1 witness: on the fixture snapshot, index 1 yields validator `v1`
with balance 31500000000 and status `"offline"`. -/
theorem getValidator_byIndex_ok_witness :
    get_validator_from_state ID.Head (ValidatorID.Index 1) db0 =
      Except.ok ⟨1, S0.balances.get ⟨1, by decide⟩, "offline",
        S0.validators.get ⟨1, by decide⟩⟩ :=
  getValidator_byIndex_ok db0 ID.Head S0 1 "offline" rfl (by decide)
    (by decide) rfl

/-- C2: `validator_status` returns `"offline"` iff the exit epoch of the
validator is strictly below the current epoch of the head snapshot, and
`"active_ongoing"` otherwise — in particular at the boundary
`exit_epoch = currentEpoch` it returns `"active_ongoing"`. -/
theorem validator_status_offline_iff (v : Validator) (db : ReamDB)
    (s : Nat) (head : BeaconState)
    (hs : db.get_highest_slot = Except.ok (some s))
    (hr : db.resolve (ID.Slot s) = Except.ok head) :
    (validator_status v db = Except.ok "offline" ↔
      v.exit_epoch < head.get_current_epoch) ∧
    (¬ v.exit_epoch < head.get_current_epoch →
      validator_status v db = Except.ok "active_ongoing") := by
  unfold validator_status
  rw [hs]
  simp only [ok_bind, hr]
  by_cases h : v.exit_epoch < head.get_current_epoch
  · simp [h]
  · simp [h]

/-- C2 witness: against the fixture head (current epoch 2), an exit
epoch of 1 is `"offline"` and the boundary exit epoch of 2 is
`"active_ongoing"`. -/
theorem validator_status_offline_iff_witness :
    validator_status ⟨101, 1⟩ db0 = Except.ok "offline" ∧
    validator_status ⟨102, 2⟩ db0 = Except.ok "active_ongoing" :=
  ⟨((validator_status_offline_iff ⟨101, 1⟩ db0 64 S0 rfl rfl).1).mpr
      (by decide),
    (validator_status_offline_iff ⟨102, 2⟩ db0 64 S0 rfl rfl).2
      (by decide)⟩

/-- C6: for every resolved snapshot and every index at or beyond the end
of the validator sequence, `getValidator(stateId, ByIndex(i))` fails
with `ValidatorNotFound` naming the requested index (in particular it
never fails with `InternalError`). -/
theorem getValidator_byIndex_out_of_range (db : ReamDB) (sid : ID)
    (S : BeaconState) (i : Nat)
    (hres : db.resolve sid = Except.ok S)
    (hlen : S.validators.length ≤ i) :
    get_validator_from_state sid (ValidatorID.Index i) db =
      Except.error (ApiError.ValidatorNotFound
        ("Validator not found for index: " ++ toString i)) := by
  unfold get_validator_from_state
  rw [hres]
  simp only [ok_bind, List.get?_eq_none.mpr hlen, error_bind]

/-- C6 witness: index 5 on the three-validator fixture snapshot fails
with `ValidatorNotFound "Validator not found for index: 5"`. -/
theorem getValidator_byIndex_out_of_range_witness :
    get_validator_from_state ID.Head (ValidatorID.Index 5) db0 =
      Except.error (ApiError.ValidatorNotFound
        ("Validator not found for index: " ++ toString 5)) :=
  getValidator_byIndex_out_of_range db0 ID.Head S0 5 rfl (by decide)

/-- C5: `getValidator(stateId, ByPubkey(k))` scans the resolved
validators of the resolved snapshot in index order,
returning the first validator
whose pubkey equals `k` (first match is the tie-break even under
duplicate pubkeys); when the pubkey of no validator equals `k` it fails with
`ValidatorNotFound` naming the requested key. -/
theorem getValidator_byPubkey_first (db : ReamDB) (sid : ID)
    (S : BeaconState) (k : Pubkey)
    (hres : db.resolve sid = Except.ok S) :
    (∀ (j : Nat) (hj : j < S.validators.length)
        (hjb : j < S.balances.length) (status : String),
      (S.validators.get ⟨j, hj⟩).pubkey = k →
      (∀ j' (hj' : j' < S.validators.length), j' < j →
        (S.validators.get ⟨j', hj'⟩).pubkey ≠ k) →
      validator_status (S.validators.get ⟨j, hj⟩) db = Except.ok status →
      get_validator_from_state sid (ValidatorID.Address k) db =
        Except.ok ⟨j, S.balances.get ⟨j, hjb⟩, status,
          S.validators.get ⟨j, hj⟩⟩) ∧
    ((∀ j (hj : j < S.validators.length),
        (S.validators.get ⟨j, hj⟩).pubkey ≠ k) →
      get_validator_from_state sid (ValidatorID.Address k) db =
        Except.error (ApiError.ValidatorNotFound
          ("Validator not found for pubkey: " ++ pubkeyRepr k))) := by
  constructor
  · intro j hj hjb status hpk hfirst hstat
    unfold get_validator_from_state
    rw [hres]
    simp only [ok_bind]
    have henum : S.validators.enum = S.validators.enumFrom 0 := rfl
    rw [henum, enumFrom_find?_of_first (fun v => v.pubkey == k)
      S.validators 0 j hj (by simpa using hpk)
      (by intro j' hj' hlt; simpa using hfirst j' hj' hlt)]
    simp only [Nat.zero_add, ok_bind, List.get?_eq_get hjb, hstat]
  · intro hnone
    unfold get_validator_from_state
    rw [hres]
    simp only [ok_bind]
    have henum : S.validators.enum = S.validators.enumFrom 0 := rfl
    have hfind : (S.validators.enumFrom 0).find?
        (fun q => q.2.pubkey == k) = none := by
      rw [List.find?_eq_none]
      intro x hx
      rw [← henum] at hx
      have hget := List.mem_enum_iff_getElem?.mp hx
      rcases List.getElem?_eq_some.mp hget with ⟨hlt, hval⟩
      have hx2 : x.2 = S.validators.get ⟨x.1, hlt⟩ := by
        simp [List.get_eq_getElem, hval]
      simp only [hx2]
      simpa using hnone x.1 hlt
    rw [henum, hfind]
    rfl

/-- C5 witness: on the fixture snapshot (pubkey 100 occurs at indices 0
and 2), the lookup by pubkey 100 returns index 0, and the lookup by the
absent pubkey 999 fails with the identifying message. -/
theorem getValidator_byPubkey_first_witness :
    get_validator_from_state ID.Head (ValidatorID.Address 100) db0 =
      Except.ok ⟨0, S0.balances.get ⟨0, by decide⟩, "active_ongoing",
        S0.validators.get ⟨0, by decide⟩⟩ ∧
    get_validator_from_state ID.Head (ValidatorID.Address 999) db0 =
      Except.error (ApiError.ValidatorNotFound
        ("Validator not found for pubkey: " ++ pubkeyRepr 999)) :=
  ⟨(getValidator_byPubkey_first db0 ID.Head S0 100 rfl).1 0 (by decide)
      (by decide) "active_ongoing" (by decide)
      (fun j' hj' h => absurd h (by omega)) rfl,
    (getValidator_byPubkey_first db0 ID.Head S0 999 rfl).2
      (by decide)⟩

/-- C9 counterexample: the integrity-violation error for a resolved
index with no balance entry is the kind `NotFound`, but its message
(`"Validator not found for index: 0"`) is byte-identical to the
`ValidatorNotFound` message for an absent validator at the same index —
it is not a distinct message signalling an integrity violation. -/
theorem getValidator_missingBalance_message_not_distinct :
    get_validator_from_state ID.Head (ValidatorID.Index 0) dbShort =
      Except.error (ApiError.NotFound "Validator not found for index: 0") ∧
    get_validator_from_state ID.Head (ValidatorID.Index 0) dbEmpty =
      Except.error (ApiError.ValidatorNotFound
        "Validator not found for index: 0") :=
  ⟨rfl, rfl⟩

/-- C9 amended: when the resolved validator index has no entry in the
balance sequence, the request fails with the generic `NotFound` kind
(not `ValidatorNotFound`); its message reuses the wording
`"Validator not found for index: {i}"`, so only the error kind — not the
message text — distinguishes the integrity violation from an absent
validator. -/
theorem getValidator_missingBalance_notFound (db : ReamDB) (sid : ID)
    (S : BeaconState) (i : Nat)
    (hres : db.resolve sid = Except.ok S)
    (hi : i < S.validators.length)
    (hib : S.balances.length ≤ i) :
    get_validator_from_state sid (ValidatorID.Index i) db =
      Except.error (ApiError.NotFound
        ("Validator not found for index: " ++ toString i)) := by
  unfold get_validator_from_state
  rw [hres]
  simp only [ok_bind, List.get?_eq_get hi, List.get?_eq_none.mpr hib,
    error_bind]

/-- C9 amended witness: on the fixture with one validator and an empty
balance sequence, index 0 fails with
`NotFound "Validator not found for index: 0"`. -/
theorem getValidator_missingBalance_notFound_witness :
    get_validator_from_state ID.Head (ValidatorID.Index 0) dbShort =
      Except.error (ApiError.NotFound
        ("Validator not found for index: " ++ toString 0)) :=
  getValidator_missingBalance_notFound dbShort ID.Head Sshort 0 rfl
    (by decide) (by decide)

/-- C3: a non-empty filter of more than 1000 distinct id strings is
rejected with `TooManyValidatorIds` — for every resolved snapshot alike,
so the validator sequence of the snapshot plays no part in the outcome —
while a filter of exactly 1000 distinct ids is not rejected by the
cap. -/
theorem getBalances_cardinality_cap (db : ReamDB) (sid : ID)
    (S : BeaconState) (ids : List String)
    (hres : db.resolve sid = Except.ok S)
    (hne : ids ≠ []) :
    (ids.toFinset.card > 1000 →
      get_validator_balances_from_state sid ⟨some ids⟩ db =
        Except.error (ApiError.TooManyValidatorIds
          "Too many validator IDs in request")) ∧
    (ids.toFinset.card = 1000 →
      ∃ r, get_validator_balances_from_state sid ⟨some ids⟩ db =
        Except.ok r) := by
  have hemp : ids.isEmpty = false := by
    cases ids with
    | nil => exact absurd rfl hne
    | cons a l => rfl
  unfold get_validator_balances_from_state
  rw [hres]
  simp only [ok_bind, hemp, Bool.false_eq_true, if_false]
  constructor
  · intro hcard
    rw [if_pos hcard]
    rfl
  · intro hcard
    rw [if_neg (by omega)]
    exact ⟨_, rfl⟩

/-- C3 witness: 1001 distinct ids are rejected with
`TooManyValidatorIds`; exactly 1000 distinct ids succeed. -/
theorem getBalances_cardinality_cap_witness :
    (get_validator_balances_from_state ID.Head ⟨some (bigIds 1001)⟩ db0 =
      Except.error (ApiError.TooManyValidatorIds
        "Too many validator IDs in request")) ∧
    (∃ r, get_validator_balances_from_state ID.Head
      ⟨some (bigIds 1000)⟩ db0 = Except.ok r) :=
  ⟨(getBalances_cardinality_cap db0 ID.Head S0 (bigIds 1001) rfl
      (bigIds_ne_nil 1001 (by omega))).1
      (by rw [bigIds_toFinset_card]; omega),
    (getBalances_cardinality_cap db0 ID.Head S0 (bigIds 1000) rfl
      (bigIds_ne_nil 1000 (by omega))).2 (bigIds_toFinset_card 1000)⟩

/-- C4: an absent filter and an empty filter list produce identical
results, both the full unfiltered listing of all validator indices with
their (default-0) balances. -/
theorem getBalances_empty_filter_means_all (db : ReamDB) (sid : ID)
    (S : BeaconState)
    (hres : db.resolve sid = Except.ok S) :
    get_validator_balances_from_state sid ⟨none⟩ db =
      get_validator_balances_from_state sid ⟨some []⟩ db ∧
    get_validator_balances_from_state sid ⟨none⟩ db =
      Except.ok ⟨false, false, (List.range S.validators.length).map
        (fun i =>
          ⟨toString i, toString ((S.balances.get? i).getD 0)⟩)⟩ := by
  have h2 : get_validator_balances_from_state sid ⟨none⟩ db =
      Except.ok ⟨false, false, (List.range S.validators.length).map
        (fun i =>
          (⟨toString i, toString ((S.balances.get? i).getD 0)⟩ :
            ValidatorBalance))⟩ := by
    unfold get_validator_balances_from_state
    rw [hres]
    simp only [ok_bind]
    rw [show S.validators.enum = S.validators.enumFrom 0 from rfl,
      enumFrom_filterMap_eq]
    simp only [Nat.zero_add]
    congr 1
    congr 1
    rw [← filterMap_some_eq_map
      (fun i => (⟨toString i, toString ((S.balances.get? i).getD 0)⟩ :
        ValidatorBalance))]
    apply List.filterMap_congr
    intro i hi
    have hlt : i < S.validators.length := List.mem_range.mp hi
    rw [List.get?_eq_get hlt]
    rfl
  have h3 : get_validator_balances_from_state sid ⟨some []⟩ db =
      get_validator_balances_from_state sid ⟨none⟩ db := by
    unfold get_validator_balances_from_state
    rfl
  exact ⟨h3.symm, h2⟩

/-- C4 witness: on the fixture snapshot, absent and empty filters agree
and return all three indices. -/
theorem getBalances_empty_filter_means_all_witness :
    get_validator_balances_from_state ID.Head ⟨none⟩ db0 =
      get_validator_balances_from_state ID.Head ⟨some []⟩ db0 ∧
    get_validator_balances_from_state ID.Head ⟨none⟩ db0 =
      Except.ok ⟨false, false, (List.range S0.validators.length).map
        (fun i =>
          ⟨toString i, toString ((S0.balances.get? i).getD 0)⟩)⟩ :=
  getBalances_empty_filter_means_all db0 ID.Head S0 rfl

/-- C10: the id strings of the filter are deduplicated into a set before the
cardinality cap is applied — a request whose filter has at most 1000
distinct ids is not rejected, no matter how many raw id strings it
supplies. -/
theorem getBalances_dedup_before_cap (db : ReamDB) (sid : ID)
    (S : BeaconState) (ids : List String)
    (hres : db.resolve sid = Except.ok S)
    (hne : ids ≠ [])
    (hcard : ids.toFinset.card ≤ 1000) :
    ∃ r, get_validator_balances_from_state sid ⟨some ids⟩ db =
      Except.ok r := by
  have hemp : ids.isEmpty = false := by
    cases ids with
    | nil => exact absurd rfl hne
    | cons a l => rfl
  unfold get_validator_balances_from_state
  rw [hres]
  simp only [ok_bind, hemp, Bool.false_eq_true, if_false]
  rw [if_neg (by omega)]
  exact ⟨_, rfl⟩

/-- C10 witness: 1001 copies of the id `"0"` (one distinct id) are
accepted and processed. -/
theorem getBalances_dedup_before_cap_witness :
    (List.replicate 1001 "0").length = 1001 ∧
    ∃ r, get_validator_balances_from_state ID.Head
      ⟨some (List.replicate 1001 "0")⟩ db0 = Except.ok r :=
  ⟨List.length_replicate 1001 "0",
    getBalances_dedup_before_cap db0 ID.Head S0 (List.replicate 1001 "0")
      rfl
      (by
        intro h
        have := congrArg List.length h
        simp only [List.length_replicate, List.length_nil] at this
        omega)
      (by rw [List.toFinset_replicate_of_ne_zero (by omega)]; simp)⟩

/-- C7: with an active (non-empty, within-cap) filter, the returned
listing keeps position `i` of the validator sequence exactly when the
filter set contains the decimal string of `i` or the string form of the
pubkey of that validator, and every kept index reports the balance at `i`,
defaulting to 0 when the balance sequence has no entry there (the
request still succeeds). -/
theorem getBalances_filter_membership (db : ReamDB) (sid : ID)
    (S : BeaconState) (ids : List String)
    (hres : db.resolve sid = Except.ok S)
    (hne : ids ≠ [])
    (hcard : ids.toFinset.card ≤ 1000) :
    get_validator_balances_from_state sid ⟨some ids⟩ db =
      Except.ok ⟨false, false, (List.range S.validators.length).filterMap
        (fun i => (S.validators.get? i).bind (fun v =>
          if toString i ∈ ids.toFinset ∨ pubkeyRepr v.pubkey ∈ ids.toFinset
          then some ⟨toString i, toString ((S.balances.get? i).getD 0)⟩
          else (none : Option ValidatorBalance)))⟩ := by
  have hemp : ids.isEmpty = false := by
    cases ids with
    | nil => exact absurd rfl hne
    | cons a l => rfl
  unfold get_validator_balances_from_state
  rw [hres]
  simp only [ok_bind, hemp, Bool.false_eq_true, if_false]
  rw [if_neg (by omega)]
  congr 1
  congr 1
  rw [show S.validators.enum = S.validators.enumFrom 0 from rfl,
    enumFrom_filterMap_eq]
  simp only [Nat.zero_add]
  apply List.filterMap_congr
  intro i hi
  congr 1
  funext v
  by_cases hA : toString i ∈ ids.toFinset <;>
    by_cases hB : pubkeyRepr v.pubkey ∈ ids.toFinset <;>
    simp [hA, hB]

/-- C7 witness: on the fixture snapshot with filter
`["1", "0x100", "nope"]` — an index string, a pubkey string and a
non-matching string — the result is the positionally characterised
listing. -/
theorem getBalances_filter_membership_witness :
    get_validator_balances_from_state ID.Head
      ⟨some ["1", "0x100", "nope"]⟩ db0 =
      Except.ok ⟨false, false,
        (List.range S0.validators.length).filterMap
          (fun i => (S0.validators.get? i).bind (fun v =>
            if toString i ∈ (["1", "0x100", "nope"] : List String).toFinset
              ∨ pubkeyRepr v.pubkey ∈
                (["1", "0x100", "nope"] : List String).toFinset
            then some ⟨toString i, toString ((S0.balances.get? i).getD 0)⟩
            else (none : Option ValidatorBalance)))⟩ :=
  getBalances_filter_membership db0 ID.Head S0 ["1", "0x100", "nope"] rfl
    (by simp) (by decide)

/-- C8: every successful `getBalances` response carries
`execution_optimistic = false` and `finalized = false`, and its data is
the image of a strictly increasing list of validator indices — so the
entries are in ascending index order and no index (hence no validator,
even one matched by both its index string and its pubkey string)
occurs twice. -/
theorem getBalances_sorted_unique (db : ReamDB) (sid : ID)
    (q : ValidatorBalanceQuery) (S : BeaconState)
    (resp : BeaconResponse (List ValidatorBalance))
    (hres : db.resolve sid = Except.ok S)
    (hok : get_validator_balances_from_state sid q db = Except.ok resp) :
    resp.execution_optimistic = false ∧ resp.finalized = false ∧
    ∃ incl : List Nat, incl.Pairwise (· < ·) ∧
      resp.data = incl.map (fun i =>
        (⟨toString i, toString ((S.balances.get? i).getD 0)⟩ :
          ValidatorBalance)) := by
  have main : ∀ (f : Option (Finset String)),
      (Except.ok (⟨false, false, S.validators.enum.filterMap (fun p =>
        match f with
        | some ids =>
          if toString p.1 ∉ ids ∧ pubkeyRepr p.2.pubkey ∉ ids then
            (none : Option ValidatorBalance)
          else
            some ⟨toString p.1, toString ((S.balances.get? p.1).getD 0)⟩
        | none =>
            some ⟨toString p.1,
              toString ((S.balances.get? p.1).getD 0)⟩)⟩ :
        BeaconResponse (List ValidatorBalance)) :
        Except ApiError (BeaconResponse (List ValidatorBalance))) =
        Except.ok resp →
      resp.execution_optimistic = false ∧ resp.finalized = false ∧
      ∃ incl : List Nat, incl.Pairwise (· < ·) ∧
        resp.data = incl.map (fun i =>
          (⟨toString i, toString ((S.balances.get? i).getD 0)⟩ :
            ValidatorBalance)) := by
    intro f hf
    injection hf with hf
    rw [← hf]
    exact ⟨rfl, rfl, scan_sorted S f⟩
  obtain ⟨idOpt⟩ := q
  unfold get_validator_balances_from_state at hok
  rw [hres] at hok
  cases idOpt with
  | none => exact main none hok
  | some ids =>
    cases ids with
    | nil => exact main none hok
    | cons a l =>
      simp only [ok_bind, List.isEmpty_cons, Bool.false_eq_true, if_false,
        error_bind] at hok
      by_cases hc : (a :: l).toFinset.card > 1000
      · rw [if_pos hc] at hok
        simp at hok
      · rw [if_neg hc] at hok
        exact main (some (a :: l).toFinset) hok

/-- C8 witness: a filter naming validator 1 both by its index string
`"1"` and its pubkey string `"0x101"` yields that validator exactly
once, with the fixed-false envelope flags. -/
theorem getBalances_sorted_unique_witness :
    (⟨false, false, [⟨"1", "31500000000"⟩]⟩ :
      BeaconResponse (List ValidatorBalance)).execution_optimistic
        = false ∧
    (⟨false, false, [⟨"1", "31500000000"⟩]⟩ :
      BeaconResponse (List ValidatorBalance)).finalized = false ∧
    ∃ incl : List Nat, incl.Pairwise (· < ·) ∧
      (⟨false, false, [⟨"1", "31500000000"⟩]⟩ :
        BeaconResponse (List ValidatorBalance)).data =
        incl.map (fun i =>
          (⟨toString i, toString ((S0.balances.get? i).getD 0)⟩ :
            ValidatorBalance)) :=
  getBalances_sorted_unique db0 ID.Head ⟨some ["1", "0x101"]⟩ S0
    ⟨false, false, [⟨"1", "31500000000"⟩]⟩ rfl rfl

end Ream
